import Mathlib

/-!
# Command-line front end of the ICP example (`examples/icp.cpp`)

A shallow embedding of `validateArgs` and `main` of `examples/icp.cpp`.

* `argv` is a `List String`; `argc` is its length.
* `exit(n)` is the constructor `Outcome.exit n`; a normal return is `Outcome.ret`.
* The three reference parameters of `validateArgs` (`isCSV`, `configFile`,
  `outputBaseFile`) are the record `Args`, passed in and returned.
* `boost::filesystem::extension` is a parameter `ext` of `validateArgs` and `main`;
  `extension` is a model of it used at concrete inputs.
* The point-cloud library (`loadCSV`, `loadVTK`, `ICP`, `TransformFeatures`, the
  `ifstream` test) is a record `Library` of functions; `main` returns the list of
  library calls it makes, in order, and its exit status.
* `usage` only prints to `cerr` and is not modelled.
-/

namespace Icp

/-! ## Data model -/

/-- Result of a procedure that may call `exit`. -/
inductive Outcome (α : Type) where
  | exit (code : Nat)
  | ret (a : α)
deriving DecidableEq, Repr

/-- The reference parameters `isCSV`, `configFile`, `outputBaseFile` of `validateArgs`. -/
structure Args where
  isCSV : Bool
  configFile : String
  outputBaseFile : String
deriving DecidableEq, Repr

/-- The values `main` gives the three variables before it calls `validateArgs`
(`icp.cpp` lines 52-54). -/
def initArgs : Args :=
  { isCSV := true, configFile := "", outputBaseFile := "test" }

/-! ## `boost::filesystem::extension` -/

/-- The characters after the last `/` of a path. -/
def leaf : List Char → List Char
  | [] => []
  | c :: cs => if '/' ∈ cs then leaf cs else if c = '/' then cs else c :: cs

/-- The suffix of a name that starts at its last `.`, when it has one. -/
def lastDot : List Char → Option (List Char)
  | [] => none
  | c :: cs =>
    match lastDot cs with
    | some s => some s
    | none => if c = '.' then some (c :: cs) else none

/-- A model of `boost::filesystem::extension` (library code outside the repository):
the part of the file name from its last dot on, empty for the names `.` and `..`
and for a name without a dot. -/
def extension (p : String) : String :=
  let name := leaf p.data
  if name = ['.'] ∨ name = ['.', '.'] then ""
  else
    match lastDot name with
    | some s => String.mk s
    | none => ""

/-! ## `validateArgs` -/

/-- The option loop of `validateArgs` (`icp.cpp` lines 119-134), started at index `i`:
`for (int i = 1; i < endOpt; i += 2)`. -/
def optLoop (argv : List String) (endOpt : Nat) (i : Nat) (st : Args) : Outcome Args :=
  if _h : i < endOpt then
    let opt := argv.getD i ""
    if i + 1 > endOpt then
      .exit 1
    else if opt = "--config" then
      optLoop argv endOpt (i + 2) { st with configFile := argv.getD (i + 1) "" }
    else if opt = "--output" then
      optLoop argv endOpt (i + 2) { st with outputBaseFile := argv.getD (i + 1) "" }
    else
      .exit 1
  else
    .ret st
termination_by endOpt - i
decreasing_by all_goals omega

/-- The function `validateArgs` (`icp.cpp` lines 112-162). `ext` stands for
`boost::filesystem::extension`. -/
def validateArgs (ext : String → String) (argv : List String) (st : Args) : Outcome Args :=
  let argc := argv.length
  if argc < 3 then
    .exit 1
  else
    let endOpt := argc - 2
    match optLoop argv endOpt 1 st with
    | .exit code => .exit code
    | .ret st1 =>
      let refExt := ext (argv.getD (argc - 2) "")
      let dataExt := ext (argv.getD (argc - 1) "")
      if ¬(refExt = ".vtk" ∨ refExt = ".csv") then
        .exit 2
      else if ¬(dataExt = ".vtk" ∨ dataExt = ".csv") then
        .exit 3
      else if dataExt ≠ refExt then
        .exit 4
      else
        .ret { st1 with isCSV := decide (dataExt = ".csv") }

/-! ## `main` -/

/-- How the `PM::ICP` object was configured before it is called. -/
inductive IcpSetup where
  | setDefault
  | loadFromYaml (file : String)
deriving DecidableEq, Repr

/-- The library operations `main` calls, as functions. `good f` is the result of
`ifstream(f).good()`; `icp s data ref` is `icp(data, ref)` on an object configured
by `s`; `compute` is `TransformFeatures::compute`. -/
structure Library (Cloud Trans : Type) where
  loadCSV : String → Cloud
  loadVTK : String → Cloud
  good : String → Bool
  icp : IcpSetup → Cloud → Cloud → Trans
  compute : Cloud → Trans → Cloud

/-- One library call made by `main`. -/
inductive Event (Cloud Trans : Type) where
  | loadCSV (file : String)
  | loadVTK (file : String)
  | setDefault
  | loadFromYaml (file : String)
  | icp (reading reference : Cloud)
  | transform (cloud : Cloud) (T : Trans)
  | saveVTK (cloud : Cloud) (file : String)
deriving DecidableEq, Repr

/-- What a run of `main` did: its library calls in order, and its exit status. -/
structure Exec (Cloud Trans : Type) where
  trace : List (Event Cloud Trans)
  status : Nat
deriving DecidableEq, Repr

/-- The function `main` (`icp.cpp` lines 50-109). -/
def main {Cloud Trans : Type} (lib : Library Cloud Trans) (ext : String → String)
    (argv : List String) : Exec Cloud Trans :=
  match validateArgs ext argv initArgs with
  | .exit code => { trace := [], status := code }
  | .ret a =>
    let argc := argv.length
    let refFile := argv.getD (argc - 2) ""
    let dataFile := argv.getD (argc - 1) ""
    let ref := if a.isCSV then lib.loadCSV refFile else lib.loadVTK refFile
    let data := if a.isCSV then lib.loadCSV dataFile else lib.loadVTK dataFile
    let loads : List (Event Cloud Trans) :=
      if a.isCSV then [.loadCSV refFile, .loadCSV dataFile]
      else [.loadVTK refFile, .loadVTK dataFile]
    if a.configFile = "" then
      let T := lib.icp .setDefault data ref
      let data_out := lib.compute data T
      { trace := loads ++ [.setDefault, .icp data ref, .transform data T,
          .saveVTK ref (a.outputBaseFile ++ "_ref.vtk"),
          .saveVTK data (a.outputBaseFile ++ "_data_in.vtk"),
          .saveVTK data_out (a.outputBaseFile ++ "_data_out.vtk")],
        status := 0 }
    else if ¬ lib.good a.configFile then
      { trace := loads, status := 1 }
    else
      let T := lib.icp (.loadFromYaml a.configFile) data ref
      let data_out := lib.compute data T
      { trace := loads ++ [.loadFromYaml a.configFile, .icp data ref, .transform data T,
          .saveVTK ref (a.outputBaseFile ++ "_ref.vtk"),
          .saveVTK data (a.outputBaseFile ++ "_data_in.vtk"),
          .saveVTK data_out (a.outputBaseFile ++ "_data_out.vtk")],
        status := 0 }

/-- The files loaded in a trace, each with `true` for the CSV loader and `false`
for the VTK loader. -/
def loadCalls {Cloud Trans : Type} : List (Event Cloud Trans) → List (Bool × String)
  | [] => []
  | .loadCSV f :: es => (true, f) :: loadCalls es
  | .loadVTK f :: es => (false, f) :: loadCalls es
  | _ :: es => loadCalls es

/-- The `saveVTK` calls of a trace: the cloud written and the file name. -/
def saveCalls {Cloud Trans : Type} : List (Event Cloud Trans) → List (Cloud × String)
  | [] => []
  | .saveVTK c f :: es => (c, f) :: saveCalls es
  | _ :: es => saveCalls es

/-- The names of the files written in a trace. -/
def savedFiles {Cloud Trans : Type} (tr : List (Event Cloud Trans)) : List String :=
  (saveCalls tr).map Prod.snd

/-- The calls of `icp(reading, reference)` in a trace. -/
def icpCalls {Cloud Trans : Type} : List (Event Cloud Trans) → List (Cloud × Cloud)
  | [] => []
  | .icp d r :: es => (d, r) :: icpCalls es
  | _ :: es => icpCalls es

/-- The calls of `transform.compute(cloud, T)` in a trace. -/
def transformCalls {Cloud Trans : Type} : List (Event Cloud Trans) → List (Cloud × Trans)
  | [] => []
  | .transform c t :: es => (c, t) :: transformCalls es
  | _ :: es => transformCalls es

/-! ## Vocabulary of the claims -/

/-- An extension the program accepts: `.vtk` or `.csv`. -/
def allowedExt (e : String) : Prop := e = ".vtk" ∨ e = ".csv"

instance (e : String) : Decidable (allowedExt e) := by
  unfold allowedExt; infer_instance

/-- Index `i` is an option-name position of `argv`: odd, and before the two
trailing file paths. -/
def optPos (argv : List String) (i : Nat) : Prop := i % 2 = 1 ∧ i < argv.length - 2

instance (argv : List String) (i : Nat) : Decidable (optPos argv i) := by
  unfold optPos; infer_instance

/-- Every token at an option-name position is `--config` or `--output`. -/
def optionsAccepted (argv : List String) : Prop :=
  ∀ i, optPos argv i → argv.getD i "" = "--config" ∨ argv.getD i "" = "--output"

/-- Some option-name position holds the option `name`. -/
def hasOption (argv : List String) (name : String) : Prop :=
  ∃ i, optPos argv i ∧ argv.getD i "" = name

/-- The token `c` follows the last occurrence of option `name` at an option-name
position. -/
def lastOptionValue (argv : List String) (name c : String) : Prop :=
  ∃ i, optPos argv i ∧ argv.getD i "" = name ∧ argv.getD (i + 1) "" = c ∧
    ∀ j, optPos argv j → i < j → argv.getD j "" ≠ name

/-- The reference file path `argv[argc-2]`. -/
def refPath (argv : List String) : String := argv.getD (argv.length - 2) ""

/-- The reading file path `argv[argc-1]`. -/
def dataPath (argv : List String) : String := argv.getD (argv.length - 1) ""

/-- The positions the option loop visits when started at `i`: `i`, `i+2`, ... below
`endOpt`. -/
def visited (endOpt i j : Nat) : Prop := i ≤ j ∧ j < endOpt ∧ (j - i) % 2 = 0

/-- Relation between the old value `old` of a variable that option `name` assigns
and its value `new` after the loop started at `i`: unchanged when no visited position
holds `name`, and otherwise the token after the last visited position that holds it. -/
def lastFrom (argv : List String) (endOpt i : Nat) (name old new : String) : Prop :=
  ((∀ j, visited endOpt i j → argv.getD j "" ≠ name) ∧ new = old) ∨
  ∃ j, visited endOpt i j ∧ argv.getD j "" = name ∧ argv.getD (j + 1) "" = new ∧
    ∀ k, visited endOpt i k → j < k → argv.getD k "" ≠ name

/-- The cloud `main` loads from file `f` when `validateArgs` left `isCSV`. -/
def loadWith {Cloud Trans : Type} (lib : Library Cloud Trans) (isCSV : Bool)
    (f : String) : Cloud :=
  if isCSV then lib.loadCSV f else lib.loadVTK f

/-- The configuration of the ICP object when `validateArgs` left `configFile`. -/
def setupOf (configFile : String) : IcpSetup :=
  if configFile = "" then .setDefault else .loadFromYaml configFile

/-- The three failure categories of the command line. -/
inductive Failure where
  | missingArguments
  | badExtension
  | extensionMismatch
deriving DecidableEq, Repr

/-- The argument vector `argv` fails in the given category: fewer than three
arguments; a reference or reading extension that is not allowed; two allowed
extensions that differ. -/
def failsIn (ext : String → String) (argv : List String) : Failure → Prop
  | .missingArguments => argv.length < 3
  | .badExtension =>
    3 ≤ argv.length ∧
      (¬ allowedExt (ext (refPath argv)) ∨ ¬ allowedExt (ext (dataPath argv)))
  | .extensionMismatch =>
    3 ≤ argv.length ∧ allowedExt (ext (refPath argv)) ∧
      allowedExt (ext (dataPath argv)) ∧ ext (refPath argv) ≠ ext (dataPath argv)

/-- The exit codes `validateArgs` gives a failure category. -/
def codesOf : Failure → List Nat
  | .missingArguments => [1]
  | .badExtension => [2, 3]
  | .extensionMismatch => [4]

/-! ## A concrete library for the examples -/

/-- A library over strings: clouds and transformations are described by the calls
that made them, and only the file `icp.yaml` can be opened. -/
def demoLib : Library String String where
  loadCSV := fun f => "csv:" ++ f
  loadVTK := fun f => "vtk:" ++ f
  good := fun f => decide (f = "icp.yaml")
  icp := fun s d r =>
    match s with
    | .setDefault => "icp[default](" ++ d ++ "," ++ r ++ ")"
    | .loadFromYaml f => "icp[" ++ f ++ "](" ++ d ++ "," ++ r ++ ")"
  compute := fun c t => "move(" ++ c ++ "," ++ t ++ ")"

/-! ## The option loop -/

theorem optLoop_done (argv : List String) (endOpt i : Nat) (st : Args)
    (h : ¬ i < endOpt) : optLoop argv endOpt i st = .ret st := by
  rw [optLoop]; simp [h]

theorem optLoop_step (argv : List String) (endOpt i : Nat) (st : Args)
    (h : i < endOpt) :
    optLoop argv endOpt i st =
      if argv.getD i "" = "--config" then
        optLoop argv endOpt (i + 2) { st with configFile := argv.getD (i + 1) "" }
      else if argv.getD i "" = "--output" then
        optLoop argv endOpt (i + 2) { st with outputBaseFile := argv.getD (i + 1) "" }
      else .exit 1 := by
  rw [optLoop]
  have h2 : ¬ (i + 1 > endOpt) := by omega
  simp only [h, h2, dite_true, if_false]

theorem visited_self (endOpt i : Nat) (h : i < endOpt) : visited endOpt i i :=
  ⟨le_refl i, h, by simp⟩

theorem visited_succ (endOpt i j : Nat) (h : visited endOpt (i + 2) j) :
    visited endOpt i j := by
  obtain ⟨h1, h2, h3⟩ := h
  exact ⟨by omega, h2, by omega⟩

theorem visited_cases (endOpt i j : Nat) (h : visited endOpt i j) :
    j = i ∨ visited endOpt (i + 2) j := by
  obtain ⟨h1, h2, h3⟩ := h
  by_cases hj : j = i
  · exact Or.inl hj
  · exact Or.inr ⟨by omega, h2, by omega⟩

theorem visited_one_iff (argv : List String) (j : Nat) :
    visited (argv.length - 2) 1 j ↔ optPos argv j := by
  unfold visited optPos
  constructor
  · rintro ⟨h1, h2, h3⟩; exact ⟨by omega, h2⟩
  · rintro ⟨h1, h2⟩; exact ⟨by omega, h2, by omega⟩

theorem lastFrom_done (argv : List String) (endOpt i : Nat) (name old : String)
    (h : ¬ i < endOpt) : lastFrom argv endOpt i name old old := by
  refine Or.inl ⟨?_, rfl⟩
  rintro j ⟨h1, h2, _⟩
  omega

theorem lastFrom_hit (argv : List String) (endOpt i : Nat) (name old new : String)
    (hi : i < endOpt) (hn : argv.getD i "" = name)
    (h : lastFrom argv endOpt (i + 2) name (argv.getD (i + 1) "") new) :
    lastFrom argv endOpt i name old new := by
  rcases h with ⟨hnone, hnew⟩ | ⟨j, hj, hjn, hjv, hlast⟩
  · refine Or.inr ⟨i, visited_self endOpt i hi, hn, hnew.symm, ?_⟩
    intro k hk hik
    rcases visited_cases endOpt i k hk with hki | hk2
    · omega
    · exact hnone k hk2
  · refine Or.inr ⟨j, visited_succ endOpt i j hj, hjn, hjv, ?_⟩
    intro k hk hjk
    rcases visited_cases endOpt i k hk with hki | hk2
    · have := hj.1; omega
    · exact hlast k hk2 hjk

theorem lastFrom_miss (argv : List String) (endOpt i : Nat) (name old new : String)
    (hn : argv.getD i "" ≠ name)
    (h : lastFrom argv endOpt (i + 2) name old new) :
    lastFrom argv endOpt i name old new := by
  rcases h with ⟨hnone, hnew⟩ | ⟨j, hj, hjn, hjv, hlast⟩
  · refine Or.inl ⟨?_, hnew⟩
    intro k hk
    rcases visited_cases endOpt i k hk with hki | hk2
    · rw [hki]; exact hn
    · exact hnone k hk2
  · refine Or.inr ⟨j, visited_succ endOpt i j hj, hjn, hjv, ?_⟩
    intro k hk hjk
    rcases visited_cases endOpt i k hk with hki | hk2
    · have := hj.1; omega
    · exact hlast k hk2 hjk

/-- When every visited token is `--config` or `--output` the loop returns, leaves
`isCSV` alone, and each of the two strings holds the value of the last option that
assigns it (or its old value). -/
theorem optLoop_accept (argv : List String) (endOpt : Nat) :
    ∀ (n i : Nat) (st : Args), endOpt - i ≤ n →
      (∀ j, visited endOpt i j →
        argv.getD j "" = "--config" ∨ argv.getD j "" = "--output") →
      ∃ st1, optLoop argv endOpt i st = .ret st1 ∧ st1.isCSV = st.isCSV ∧
        lastFrom argv endOpt i "--config" st.configFile st1.configFile ∧
        lastFrom argv endOpt i "--output" st.outputBaseFile st1.outputBaseFile := by
  intro n
  induction n with
  | zero =>
    intro i st hn _
    have h : ¬ i < endOpt := by omega
    exact ⟨st, optLoop_done argv endOpt i st h, rfl,
      lastFrom_done argv endOpt i _ _ h, lastFrom_done argv endOpt i _ _ h⟩
  | succ n ih =>
    intro i st hn hacc
    by_cases h : i < endOpt
    · have hrest : ∀ j, visited endOpt (i + 2) j →
          argv.getD j "" = "--config" ∨ argv.getD j "" = "--output" :=
        fun j hj => hacc j (visited_succ endOpt i j hj)
      rw [optLoop_step argv endOpt i st h]
      by_cases hc : argv.getD i "" = "--config"
      · rw [if_pos hc]
        obtain ⟨st1, hrun, hcsv, hcfg, hout⟩ :=
          ih (i + 2) { st with configFile := argv.getD (i + 1) "" } (by omega) hrest
        refine ⟨st1, hrun, hcsv, lastFrom_hit argv endOpt i _ _ _ h hc hcfg, ?_⟩
        exact lastFrom_miss argv endOpt i _ _ _ (by rw [hc]; decide) hout
      · rw [if_neg hc]
        have ho : argv.getD i "" = "--output" := by
          rcases hacc i (visited_self endOpt i h) with h1 | h1
          · exact absurd h1 hc
          · exact h1
        rw [if_pos ho]
        obtain ⟨st1, hrun, hcsv, hcfg, hout⟩ :=
          ih (i + 2) { st with outputBaseFile := argv.getD (i + 1) "" } (by omega) hrest
        exact ⟨st1, hrun, hcsv, lastFrom_miss argv endOpt i _ _ _ hc hcfg,
          lastFrom_hit argv endOpt i _ _ _ h ho hout⟩
    · exact ⟨st, optLoop_done argv endOpt i st h, rfl,
        lastFrom_done argv endOpt i _ _ h, lastFrom_done argv endOpt i _ _ h⟩

/-- When some visited token is neither `--config` nor `--output` the loop exits
with code 1. -/
theorem optLoop_reject (argv : List String) (endOpt : Nat) :
    ∀ (n i : Nat) (st : Args), endOpt - i ≤ n →
      (∃ j, visited endOpt i j ∧
        argv.getD j "" ≠ "--config" ∧ argv.getD j "" ≠ "--output") →
      optLoop argv endOpt i st = .exit 1 := by
  intro n
  induction n with
  | zero =>
    rintro i st hn ⟨j, ⟨h1, h2, _⟩, _⟩
    omega
  | succ n ih =>
    rintro i st hn ⟨j, hj, hjc, hjo⟩
    have h : i < endOpt := by have := hj.1; have := hj.2.1; omega
    rw [optLoop_step argv endOpt i st h]
    rcases visited_cases endOpt i j hj with hji | hj2
    · subst hji
      rw [if_neg hjc, if_neg hjo]
    · by_cases hc : argv.getD i "" = "--config"
      · rw [if_pos hc]
        exact ih (i + 2) _ (by omega) ⟨j, hj2, hjc, hjo⟩
      · rw [if_neg hc]
        by_cases ho : argv.getD i "" = "--output"
        · rw [if_pos ho]
          exact ih (i + 2) _ (by omega) ⟨j, hj2, hjc, hjo⟩
        · rw [if_neg ho]

/-! ## `validateArgs` as a whole -/

theorem hasOption_of_last (argv : List String) (name c : String)
    (h : lastOptionValue argv name c) : hasOption argv name := by
  obtain ⟨i, hi, hn, _, _⟩ := h
  exact ⟨i, hi, hn⟩

theorem lastOptionValue_unique (argv : List String) (name c d : String)
    (hc : lastOptionValue argv name c) (hd : lastOptionValue argv name d) : c = d := by
  obtain ⟨i, hi, hin, hiv, hil⟩ := hc
  obtain ⟨j, hj, hjn, hjv, hjl⟩ := hd
  have hij : i = j := by
    rcases Nat.lt_trichotomy i j with h | h | h
    · exact absurd hjn (hil j hj h)
    · exact h
    · exact absurd hin (hjl i hi h)
  subst hij
  rw [← hiv, ← hjv]

theorem lastFrom_one (argv : List String) (name old new : String)
    (h : lastFrom argv (argv.length - 2) 1 name old new) :
    (¬ hasOption argv name ∧ new = old) ∨ lastOptionValue argv name new := by
  rcases h with ⟨hnone, hnew⟩ | ⟨j, hj, hjn, hjv, hlast⟩
  · refine Or.inl ⟨?_, hnew⟩
    rintro ⟨i, hi, hin⟩
    exact hnone i ((visited_one_iff argv i).2 hi) hin
  · refine Or.inr ⟨j, (visited_one_iff argv j).1 hj, hjn, hjv, ?_⟩
    intro k hk hjk
    exact hlast k ((visited_one_iff argv k).2 hk) hjk

/-- With accepted options the loop of `validateArgs` returns; `configFile` and
`outputBaseFile` are then the values of the last `--config` and `--output`. -/
theorem optLoop_main_accept (argv : List String) (st : Args)
    (hacc : optionsAccepted argv) :
    ∃ st1, optLoop argv (argv.length - 2) 1 st = .ret st1 ∧ st1.isCSV = st.isCSV ∧
      ((¬ hasOption argv "--config" ∧ st1.configFile = st.configFile) ∨
        lastOptionValue argv "--config" st1.configFile) ∧
      ((¬ hasOption argv "--output" ∧ st1.outputBaseFile = st.outputBaseFile) ∨
        lastOptionValue argv "--output" st1.outputBaseFile) := by
  obtain ⟨st1, hrun, hcsv, hcfg, hout⟩ :=
    optLoop_accept argv (argv.length - 2) (argv.length - 2 - 1) 1 st (le_refl _)
      (fun j hj => hacc j ((visited_one_iff argv j).1 hj))
  exact ⟨st1, hrun, hcsv, lastFrom_one argv _ _ _ hcfg, lastFrom_one argv _ _ _ hout⟩

theorem optLoop_main_reject (argv : List String) (st : Args)
    (h : ¬ optionsAccepted argv) :
    optLoop argv (argv.length - 2) 1 st = .exit 1 := by
  unfold optionsAccepted at h
  push_neg at h
  obtain ⟨i, hi, hc, ho⟩ := h
  exact optLoop_reject argv (argv.length - 2) (argv.length - 2 - 1) 1 st (le_refl _)
    ⟨i, (visited_one_iff argv i).2 hi, hc, ho⟩

/-- The result of `validateArgs` once the option loop has returned `st1`. -/
theorem validateArgs_after_loop (ext : String → String) (argv : List String)
    (st st1 : Args) (h3 : 3 ≤ argv.length)
    (hloop : optLoop argv (argv.length - 2) 1 st = .ret st1) :
    validateArgs ext argv st =
      if ¬ allowedExt (ext (refPath argv)) then .exit 2
      else if ¬ allowedExt (ext (dataPath argv)) then .exit 3
      else if ext (dataPath argv) ≠ ext (refPath argv) then .exit 4
      else .ret { st1 with isCSV := decide (ext (dataPath argv) = ".csv") } := by
  have h : ¬ argv.length < 3 := by omega
  simp only [validateArgs, h, if_false, hloop, allowedExt, refPath, dataPath]

theorem validateArgs_of_reject (ext : String → String) (argv : List String)
    (st : Args) (h : ¬ optionsAccepted argv) :
    validateArgs ext argv st = .exit 1 := by
  unfold validateArgs
  by_cases h3 : argv.length < 3
  · simp only [h3, if_true]
  · simp only [h3, if_false, optLoop_main_reject argv st h]

/-- A normal return of `validateArgs`, taken apart. -/
theorem validateArgs_ret (ext : String → String) (argv : List String) (st a : Args)
    (h : validateArgs ext argv st = .ret a) :
    3 ≤ argv.length ∧ optionsAccepted argv ∧
      allowedExt (ext (refPath argv)) ∧ ext (dataPath argv) = ext (refPath argv) ∧
      a.isCSV = decide (ext (dataPath argv) = ".csv") ∧
      ((¬ hasOption argv "--config" ∧ a.configFile = st.configFile) ∨
        lastOptionValue argv "--config" a.configFile) ∧
      ((¬ hasOption argv "--output" ∧ a.outputBaseFile = st.outputBaseFile) ∨
        lastOptionValue argv "--output" a.outputBaseFile) := by
  have h3 : 3 ≤ argv.length := by
    by_contra hlt
    have : argv.length < 3 := by omega
    simp [validateArgs, this] at h
  have hacc : optionsAccepted argv := by
    by_contra hn
    rw [validateArgs_of_reject ext argv st hn] at h
    cases h
  obtain ⟨st1, hrun, _, hcfg, hout⟩ := optLoop_main_accept argv st hacc
  rw [validateArgs_after_loop ext argv st st1 h3 hrun] at h
  by_cases hr : allowedExt (ext (refPath argv))
  · by_cases hd : allowedExt (ext (dataPath argv))
    · by_cases he : ext (dataPath argv) = ext (refPath argv)
      · simp only [hr, hd, he, not_true_eq_false, if_false, ne_eq] at h
        injection h with h
        subst h
        exact ⟨h3, hacc, hr, he, by simp [he], hcfg, hout⟩
      · simp [hr, hd, he] at h
    · simp [hr, hd] at h
  · simp [hr] at h

/-! ## Exit codes of `validateArgs` -/

/-- C1 (as stated, refuted): the vector `icp --bogus x a.txt b.csv` has a reference
extension `.txt` that is not allowed, so it fails in the bad-extension category, yet
`validateArgs` exits with code 1, the code of the missing-arguments vector `icp`. -/
theorem validateArgs_codes_counterexample :
    failsIn extension ["icp", "--bogus", "x", "a.txt", "b.csv"] Failure.badExtension ∧
    validateArgs extension ["icp", "--bogus", "x", "a.txt", "b.csv"] initArgs = .exit 1 ∧
    failsIn extension ["icp"] Failure.missingArguments ∧
    validateArgs extension ["icp"] initArgs = .exit 1 := by
  refine ⟨⟨by decide, Or.inl (by decide)⟩, ?_, by simp [failsIn], ?_⟩
  · simp [validateArgs, optLoop]
  · simp [validateArgs]

/-- C1 (amended): for an argument vector whose option-name tokens are all `--config`
or `--output`, a failure in one of the three categories exits with a non-zero code of
that category (1 for missing arguments, 2 or 3 for a bad extension, 4 for an
extension mismatch), and no such vector failing in another category gets the same
exit code. -/
theorem validateArgs_failure_codes (ext : String → String) (argv : List String)
    (st : Args) (f : Failure) (hacc : optionsAccepted argv)
    (hf : failsIn ext argv f) :
    (∃ c ∈ codesOf f, c ≠ 0 ∧ validateArgs ext argv st = .exit c) ∧
    (∀ (argv2 : List String) (st2 : Args) (g : Failure), optionsAccepted argv2 →
      failsIn ext argv2 g → f ≠ g →
      validateArgs ext argv st ≠ validateArgs ext argv2 st2) := by
  have key : ∀ (av : List String) (s : Args) (k : Failure), optionsAccepted av →
      failsIn ext av k → ∃ c ∈ codesOf k, c ≠ 0 ∧ validateArgs ext av s = .exit c := by
    intro av s k hav hk
    cases k with
    | missingArguments =>
      have h : av.length < 3 := hk
      exact ⟨1, by simp [codesOf], by decide, by simp [validateArgs, h]⟩
    | badExtension =>
      obtain ⟨h3, hbad⟩ := hk
      obtain ⟨s1, hrun, _⟩ := optLoop_main_accept av s hav
      rw [validateArgs_after_loop ext av s s1 h3 hrun]
      by_cases hr : allowedExt (ext (refPath av))
      · have hd : ¬ allowedExt (ext (dataPath av)) := by
          rcases hbad with h | h
          · exact absurd hr h
          · exact h
        exact ⟨3, by simp [codesOf], by decide, by simp [hr, hd]⟩
      · exact ⟨2, by simp [codesOf], by decide, by simp [hr]⟩
    | extensionMismatch =>
      obtain ⟨h3, hr, hd, hne⟩ := hk
      obtain ⟨s1, hrun, _⟩ := optLoop_main_accept av s hav
      rw [validateArgs_after_loop ext av s s1 h3 hrun]
      exact ⟨4, by simp [codesOf], by decide, by simp [hr, hd, Ne.symm hne]⟩
  refine ⟨key argv st f hacc hf, ?_⟩
  intro argv2 st2 g hacc2 hg hfg heq
  obtain ⟨c, hc, _, hrun⟩ := key argv st f hacc hf
  obtain ⟨d, hd, _, hrun2⟩ := key argv2 st2 g hacc2 hg
  rw [hrun, hrun2] at heq
  injection heq with hcd
  subst hcd
  cases f <;> cases g <;> simp [codesOf] at hc hd hfg <;> omega

/-- Witness for C1 (amended) at `icp --output o a.vtk b.csv`, an extension mismatch. -/
theorem validateArgs_failure_codes_witness :
    (∃ c ∈ codesOf Failure.extensionMismatch, c ≠ 0 ∧
      validateArgs extension ["icp", "--output", "o", "a.vtk", "b.csv"] initArgs
        = .exit c) ∧
    (∀ (argv2 : List String) (st2 : Args) (g : Failure), optionsAccepted argv2 →
      failsIn extension argv2 g → Failure.extensionMismatch ≠ g →
      validateArgs extension ["icp", "--output", "o", "a.vtk", "b.csv"] initArgs
        ≠ validateArgs extension argv2 st2) :=
  validateArgs_failure_codes extension ["icp", "--output", "o", "a.vtk", "b.csv"]
    initArgs Failure.extensionMismatch
    (by
      rintro i ⟨h1, h2⟩
      simp at h2
      interval_cases i <;> simp_all)
    ⟨by decide, by decide, by decide, by decide⟩

/-- C2 (the code at the failing input): `icp --config ref.csv data.csv` has one token
between the program name and the two file paths, so `--config` has no value of its
own; `validateArgs` still returns normally, with the reference path in `configFile`. -/
theorem validateArgs_missing_value_accepted :
    validateArgs extension ["icp", "--config", "ref.csv", "data.csv"] initArgs =
      .ret { isCSV := true, configFile := "ref.csv", outputBaseFile := "test" } ∧
    refPath ["icp", "--config", "ref.csv", "data.csv"] = "ref.csv" := by
  refine ⟨?_, by decide⟩
  simp [validateArgs, optLoop, initArgs, extension, leaf, lastDot]

/-- C3: when some token at an option-name position (odd index below `argc - 2`) is
neither `--config` nor `--output`, `validateArgs` exits with code 1, whatever the
extensions of the two file paths are. -/
theorem validateArgs_unknown_option (ext : String → String) (argv : List String)
    (st : Args) (h3 : 3 ≤ argv.length)
    (h : ∃ i, optPos argv i ∧
      argv.getD i "" ≠ "--config" ∧ argv.getD i "" ≠ "--output") :
    validateArgs ext argv st = .exit 1 := by
  have hrej : ¬ optionsAccepted argv := by
    intro hacc
    obtain ⟨i, hi, hc, ho⟩ := h
    rcases hacc i hi with h1 | h1
    · exact hc h1
    · exact ho h1
  have h3n : ¬ argv.length < 3 := by omega
  simp only [validateArgs, h3n, if_false, optLoop_main_reject argv st hrej]

/-- Witness for C3 at `icp --config c.yaml --verbose 1 a.csv b.csv`. -/
theorem validateArgs_unknown_option_witness :
    validateArgs extension ["icp", "--config", "c.yaml", "--verbose", "1", "a.csv", "b.csv"]
      initArgs = .exit 1 :=
  validateArgs_unknown_option extension
    ["icp", "--config", "c.yaml", "--verbose", "1", "a.csv", "b.csv"] initArgs
    (by decide) ⟨3, by decide, by decide, by decide⟩

/-- C4: with `argc >= 3` and every option-name token accepted, `validateArgs` returns
normally exactly when both extensions are allowed and equal; it exits with code 2
exactly when the reference extension is not allowed, with code 3 exactly when the
reference extension is allowed and the reading extension is not, and with code 4
exactly when both are allowed and differ. -/
theorem validateArgs_extensions (ext : String → String) (argv : List String)
    (st : Args) (h3 : 3 ≤ argv.length) (hacc : optionsAccepted argv) :
    ((∃ a, validateArgs ext argv st = .ret a) ↔
      allowedExt (ext (refPath argv)) ∧ allowedExt (ext (dataPath argv)) ∧
        ext (refPath argv) = ext (dataPath argv)) ∧
    (validateArgs ext argv st = .exit 2 ↔ ¬ allowedExt (ext (refPath argv))) ∧
    (validateArgs ext argv st = .exit 3 ↔
      allowedExt (ext (refPath argv)) ∧ ¬ allowedExt (ext (dataPath argv))) ∧
    (validateArgs ext argv st = .exit 4 ↔
      allowedExt (ext (refPath argv)) ∧ allowedExt (ext (dataPath argv)) ∧
        ext (refPath argv) ≠ ext (dataPath argv)) := by
  obtain ⟨st1, hrun, _⟩ := optLoop_main_accept argv st hacc
  rw [validateArgs_after_loop ext argv st st1 h3 hrun]
  by_cases hr : allowedExt (ext (refPath argv))
  · by_cases hd : allowedExt (ext (dataPath argv))
    · by_cases he : ext (dataPath argv) = ext (refPath argv)
      · simp [hr, hd, he]
      · have he2 : ¬ ext (refPath argv) = ext (dataPath argv) := fun h => he h.symm
        simp [hr, hd, he, he2]
    · simp [hr, hd]
  · simp [hr]

/-- Witness for C4 at `icp --output o a.vtk b.csv`. -/
theorem validateArgs_extensions_witness :
    ((∃ a, validateArgs extension ["icp", "--output", "o", "a.vtk", "b.csv"] initArgs
        = .ret a) ↔
      allowedExt (extension (refPath ["icp", "--output", "o", "a.vtk", "b.csv"])) ∧
        allowedExt (extension (dataPath ["icp", "--output", "o", "a.vtk", "b.csv"])) ∧
        extension (refPath ["icp", "--output", "o", "a.vtk", "b.csv"]) =
          extension (dataPath ["icp", "--output", "o", "a.vtk", "b.csv"])) ∧
    (validateArgs extension ["icp", "--output", "o", "a.vtk", "b.csv"] initArgs = .exit 2 ↔
      ¬ allowedExt (extension (refPath ["icp", "--output", "o", "a.vtk", "b.csv"]))) ∧
    (validateArgs extension ["icp", "--output", "o", "a.vtk", "b.csv"] initArgs = .exit 3 ↔
      allowedExt (extension (refPath ["icp", "--output", "o", "a.vtk", "b.csv"])) ∧
        ¬ allowedExt (extension (dataPath ["icp", "--output", "o", "a.vtk", "b.csv"]))) ∧
    (validateArgs extension ["icp", "--output", "o", "a.vtk", "b.csv"] initArgs = .exit 4 ↔
      allowedExt (extension (refPath ["icp", "--output", "o", "a.vtk", "b.csv"])) ∧
        allowedExt (extension (dataPath ["icp", "--output", "o", "a.vtk", "b.csv"])) ∧
        extension (refPath ["icp", "--output", "o", "a.vtk", "b.csv"]) ≠
          extension (dataPath ["icp", "--output", "o", "a.vtk", "b.csv"])) :=
  validateArgs_extensions extension ["icp", "--output", "o", "a.vtk", "b.csv"] initArgs
    (by decide)
    (by
      rintro i ⟨h1, h2⟩
      simp at h2
      interval_cases i <;> simp_all)

/-! ## `main` -/

/-- The run of `main` once `validateArgs` has returned `a`. -/
theorem main_of_ret {Cloud Trans : Type} (lib : Library Cloud Trans)
    (ext : String → String) (argv : List String) (a : Args)
    (h : validateArgs ext argv initArgs = .ret a) :
    main lib ext argv =
      if a.configFile = "" then
        { trace :=
            [if a.isCSV then .loadCSV (refPath argv) else .loadVTK (refPath argv),
             if a.isCSV then .loadCSV (dataPath argv) else .loadVTK (dataPath argv),
             .setDefault,
             .icp (loadWith lib a.isCSV (dataPath argv)) (loadWith lib a.isCSV (refPath argv)),
             .transform (loadWith lib a.isCSV (dataPath argv))
               (lib.icp .setDefault (loadWith lib a.isCSV (dataPath argv))
                 (loadWith lib a.isCSV (refPath argv))),
             .saveVTK (loadWith lib a.isCSV (refPath argv)) (a.outputBaseFile ++ "_ref.vtk"),
             .saveVTK (loadWith lib a.isCSV (dataPath argv))
               (a.outputBaseFile ++ "_data_in.vtk"),
             .saveVTK (lib.compute (loadWith lib a.isCSV (dataPath argv))
               (lib.icp .setDefault (loadWith lib a.isCSV (dataPath argv))
                 (loadWith lib a.isCSV (refPath argv))))
               (a.outputBaseFile ++ "_data_out.vtk")],
          status := 0 }
      else if lib.good a.configFile = false then
        { trace :=
            [if a.isCSV then .loadCSV (refPath argv) else .loadVTK (refPath argv),
             if a.isCSV then .loadCSV (dataPath argv) else .loadVTK (dataPath argv)],
          status := 1 }
      else
        { trace :=
            [if a.isCSV then .loadCSV (refPath argv) else .loadVTK (refPath argv),
             if a.isCSV then .loadCSV (dataPath argv) else .loadVTK (dataPath argv),
             .loadFromYaml a.configFile,
             .icp (loadWith lib a.isCSV (dataPath argv)) (loadWith lib a.isCSV (refPath argv)),
             .transform (loadWith lib a.isCSV (dataPath argv))
               (lib.icp (.loadFromYaml a.configFile) (loadWith lib a.isCSV (dataPath argv))
                 (loadWith lib a.isCSV (refPath argv))),
             .saveVTK (loadWith lib a.isCSV (refPath argv)) (a.outputBaseFile ++ "_ref.vtk"),
             .saveVTK (loadWith lib a.isCSV (dataPath argv))
               (a.outputBaseFile ++ "_data_in.vtk"),
             .saveVTK (lib.compute (loadWith lib a.isCSV (dataPath argv))
               (lib.icp (.loadFromYaml a.configFile) (loadWith lib a.isCSV (dataPath argv))
                 (loadWith lib a.isCSV (refPath argv))))
               (a.outputBaseFile ++ "_data_out.vtk")],
          status := 0 } := by
  simp only [main, h, loadWith, refPath, dataPath]
  cases a.isCSV <;> by_cases hc : a.configFile = "" <;>
    cases hg : lib.good a.configFile <;> simp [hc, hg]

/-- In an argument vector of odd length every option name is followed by a token
that comes before the two file paths. -/
theorem option_value_before_paths (argv : List String) (hodd : argv.length % 2 = 1)
    (i : Nat) (hi : optPos argv i) : i + 1 < argv.length - 2 := by
  obtain ⟨h1, h2⟩ := hi
  omega

/-- The value `configFile` has when `main` tests it. -/
theorem configFile_of_ret (ext : String → String) (argv : List String) (a : Args)
    (h : validateArgs ext argv initArgs = .ret a) :
    a.configFile = "" ↔
      (¬ hasOption argv "--config" ∨ lastOptionValue argv "--config" "") := by
  obtain ⟨_, _, _, _, _, hcfg, _⟩ := validateArgs_ret ext argv initArgs a h
  constructor
  · intro he
    rcases hcfg with ⟨hno, _⟩ | hlast
    · exact Or.inl hno
    · exact Or.inr (he ▸ hlast)
  · rintro (hno | hlast)
    · rcases hcfg with ⟨_, hv⟩ | hl
      · exact hv
      · exact absurd (hasOption_of_last argv _ _ hl) hno
    · rcases hcfg with ⟨hno, _⟩ | hl
      · exact absurd (hasOption_of_last argv _ _ hlast) hno
      · exact lastOptionValue_unique argv _ _ _ hl hlast

/-- C5 (as stated, refuted): in `icp --config x.yaml --config "" a.csv b.csv` a
`--config` option is present, with value `x.yaml` at index 1, and `x.yaml` cannot be
opened; yet `main` configures the ICP object with `setDefault`, never loads
`x.yaml`, and returns 0. -/
theorem main_config_counterexample :
    hasOption ["icp", "--config", "x.yaml", "--config", "", "a.csv", "b.csv"] "--config" ∧
    demoLib.good "x.yaml" = false ∧
    Event.setDefault ∈
      (main demoLib extension
        ["icp", "--config", "x.yaml", "--config", "", "a.csv", "b.csv"]).trace ∧
    Event.loadFromYaml "x.yaml" ∉
      (main demoLib extension
        ["icp", "--config", "x.yaml", "--config", "", "a.csv", "b.csv"]).trace ∧
    (main demoLib extension
        ["icp", "--config", "x.yaml", "--config", "", "a.csv", "b.csv"]).status = 0 := by
  refine ⟨⟨1, by decide, by decide⟩, by decide, ?_, ?_, ?_⟩ <;>
    simp [main, validateArgs, optLoop, initArgs, extension, leaf, lastDot]

/-- C5 (amended): for an accepted argument vector in which every option name is
followed by a value of its own (odd `argc`), `main` sets the ICP object up with
`setDefault` exactly when no `--config` option is present or the value of the last
`--config` option is the empty string; otherwise, with `c` the value of the last
`--config` option, the configuration is loaded from the file named `c` when it can
be opened, and `main` exits with code 1 when it cannot. -/
theorem main_config_selection {Cloud Trans : Type} (lib : Library Cloud Trans)
    (ext : String → String) (argv : List String) (a : Args)
    (h : validateArgs ext argv initArgs = .ret a) (hodd : argv.length % 2 = 1) :
    (∀ i, optPos argv i → i + 1 < argv.length - 2) ∧
    (Event.setDefault ∈ (main lib ext argv).trace ↔
      (¬ hasOption argv "--config" ∨ lastOptionValue argv "--config" "")) ∧
    (∀ c, lastOptionValue argv "--config" c → c ≠ "" →
      (lib.good c = true →
        (main lib ext argv).status = 0 ∧
        Event.loadFromYaml c ∈ (main lib ext argv).trace ∧
        Event.setDefault ∉ (main lib ext argv).trace) ∧
      (lib.good c = false →
        (main lib ext argv).status = 1 ∧
        Event.loadFromYaml c ∉ (main lib ext argv).trace ∧
        Event.setDefault ∉ (main lib ext argv).trace)) := by
  refine ⟨option_value_before_paths argv hodd, ?_, ?_⟩
  · rw [← configFile_of_ret ext argv a h, main_of_ret lib ext argv a h]
    by_cases hc : a.configFile = "" <;> cases hg : lib.good a.configFile <;>
      cases a.isCSV <;> simp [hc, hg]
  · intro c hlast hne
    have hac : a.configFile = c := by
      obtain ⟨_, _, _, _, _, hcfg, _⟩ := validateArgs_ret ext argv initArgs a h
      rcases hcfg with ⟨hno, _⟩ | hl
      · exact absurd (hasOption_of_last argv _ _ hlast) hno
      · exact lastOptionValue_unique argv _ _ _ hl hlast
    subst hac
    rw [main_of_ret lib ext argv a h]
    constructor
    · intro hg
      cases a.isCSV <;> simp [hne, hg]
    · intro hg
      cases a.isCSV <;> simp [hne, hg]

/-- Witness for C5 (amended) at `icp --config icp.yaml a.csv b.csv`. -/
theorem main_config_selection_witness :
    (∀ i, optPos ["icp", "--config", "icp.yaml", "a.csv", "b.csv"] i →
      i + 1 < ["icp", "--config", "icp.yaml", "a.csv", "b.csv"].length - 2) ∧
    (Event.setDefault ∈
        (main demoLib extension ["icp", "--config", "icp.yaml", "a.csv", "b.csv"]).trace ↔
      (¬ hasOption ["icp", "--config", "icp.yaml", "a.csv", "b.csv"] "--config" ∨
        lastOptionValue ["icp", "--config", "icp.yaml", "a.csv", "b.csv"] "--config" "")) ∧
    (∀ c, lastOptionValue ["icp", "--config", "icp.yaml", "a.csv", "b.csv"] "--config" c →
      c ≠ "" →
      (demoLib.good c = true →
        (main demoLib extension ["icp", "--config", "icp.yaml", "a.csv", "b.csv"]).status = 0 ∧
        Event.loadFromYaml c ∈
          (main demoLib extension ["icp", "--config", "icp.yaml", "a.csv", "b.csv"]).trace ∧
        Event.setDefault ∉
          (main demoLib extension ["icp", "--config", "icp.yaml", "a.csv", "b.csv"]).trace) ∧
      (demoLib.good c = false →
        (main demoLib extension ["icp", "--config", "icp.yaml", "a.csv", "b.csv"]).status = 1 ∧
        Event.loadFromYaml c ∉
          (main demoLib extension ["icp", "--config", "icp.yaml", "a.csv", "b.csv"]).trace ∧
        Event.setDefault ∉
          (main demoLib extension ["icp", "--config", "icp.yaml", "a.csv", "b.csv"]).trace)) :=
  main_config_selection demoLib extension ["icp", "--config", "icp.yaml", "a.csv", "b.csv"]
    { isCSV := true, configFile := "icp.yaml", outputBaseFile := "test" }
    (by simp [validateArgs, optLoop, initArgs, extension, leaf, lastDot])
    (by decide)

/-- C6 (as stated, refuted): `icp --config missing.yaml a.csv b.csv` is accepted by
`validateArgs`, but `missing.yaml` cannot be opened and `main` exits with code 1
without writing a file; and `icp --output x --output y a.csv b.csv` is accepted and
writes `y_ref.vtk`, `y_data_in.vtk`, `y_data_out.vtk`, no file named after `x`. -/
theorem main_output_files_counterexample :
    validateArgs extension ["icp", "--config", "missing.yaml", "a.csv", "b.csv"] initArgs =
      .ret { isCSV := true, configFile := "missing.yaml", outputBaseFile := "test" } ∧
    demoLib.good "missing.yaml" = false ∧
    (main demoLib extension ["icp", "--config", "missing.yaml", "a.csv", "b.csv"]).status
      = 1 ∧
    savedFiles
      (main demoLib extension ["icp", "--config", "missing.yaml", "a.csv", "b.csv"]).trace
      = [] ∧
    savedFiles
      (main demoLib extension
        ["icp", "--output", "x", "--output", "y", "a.csv", "b.csv"]).trace
      = ["y_ref.vtk", "y_data_in.vtk", "y_data_out.vtk"] := by
  refine ⟨?_, by decide, ?_, ?_, ?_⟩ <;>
    simp [main, validateArgs, optLoop, initArgs, extension, leaf, lastDot, demoLib,
      savedFiles, saveCalls]

/-- C6 (amended): for an accepted argument vector in which every option name is
followed by a value of its own (odd `argc`) and whose configuration file, when the
last `--config` names one, can be opened, `main` writes exactly the three files
`b_ref.vtk`, `b_data_in.vtk`, `b_data_out.vtk`, where `b` is the value of the last
`--output` option, and `test_ref.vtk`, `test_data_in.vtk`, `test_data_out.vtk` when
no `--output` option is present. -/
theorem main_output_files {Cloud Trans : Type} (lib : Library Cloud Trans)
    (ext : String → String) (argv : List String) (a : Args)
    (h : validateArgs ext argv initArgs = .ret a) (hodd : argv.length % 2 = 1)
    (hopen : ∀ c, lastOptionValue argv "--config" c → c ≠ "" → lib.good c = true) :
    (∀ i, optPos argv i → i + 1 < argv.length - 2) ∧
    (¬ hasOption argv "--output" →
      savedFiles (main lib ext argv).trace =
        ["test_ref.vtk", "test_data_in.vtk", "test_data_out.vtk"]) ∧
    (∀ b, lastOptionValue argv "--output" b →
      savedFiles (main lib ext argv).trace =
        [b ++ "_ref.vtk", b ++ "_data_in.vtk", b ++ "_data_out.vtk"]) := by
  obtain ⟨_, _, _, _, _, hcfg, hout⟩ := validateArgs_ret ext argv initArgs a h
  have hrun : a.configFile = "" ∨ lib.good a.configFile = true := by
    rcases hcfg with ⟨_, hv⟩ | hl
    · exact Or.inl hv
    · by_cases he : a.configFile = ""
      · exact Or.inl he
      · exact Or.inr (hopen _ hl he)
  have hsaved : savedFiles (main lib ext argv).trace =
      [a.outputBaseFile ++ "_ref.vtk", a.outputBaseFile ++ "_data_in.vtk",
        a.outputBaseFile ++ "_data_out.vtk"] := by
    rw [main_of_ret lib ext argv a h]
    by_cases hc : a.configFile = ""
    · cases a.isCSV <;> simp [hc, savedFiles, saveCalls]
    · have hg : lib.good a.configFile = true := by
        rcases hrun with h1 | h1
        · exact absurd h1 hc
        · exact h1
      cases a.isCSV <;> simp [hc, hg, savedFiles, saveCalls]
  refine ⟨option_value_before_paths argv hodd, ?_, ?_⟩
  · intro hno
    have hb : a.outputBaseFile = "test" := by
      rcases hout with ⟨_, hv⟩ | hl
      · exact hv
      · exact absurd (hasOption_of_last argv _ _ hl) hno
    rw [hsaved, hb]
    decide
  · intro b hb
    have hab : a.outputBaseFile = b := by
      rcases hout with ⟨hno, _⟩ | hl
      · exact absurd (hasOption_of_last argv _ _ hb) hno
      · exact lastOptionValue_unique argv _ _ _ hl hb
    rw [hsaved, hab]

/-- Witness for C6 (amended) at `icp --output run1 a.vtk b.vtk`. -/
theorem main_output_files_witness :
    (∀ i, optPos ["icp", "--output", "run1", "a.vtk", "b.vtk"] i →
      i + 1 < ["icp", "--output", "run1", "a.vtk", "b.vtk"].length - 2) ∧
    (¬ hasOption ["icp", "--output", "run1", "a.vtk", "b.vtk"] "--output" →
      savedFiles (main demoLib extension ["icp", "--output", "run1", "a.vtk", "b.vtk"]).trace =
        ["test_ref.vtk", "test_data_in.vtk", "test_data_out.vtk"]) ∧
    (∀ b, lastOptionValue ["icp", "--output", "run1", "a.vtk", "b.vtk"] "--output" b →
      savedFiles (main demoLib extension ["icp", "--output", "run1", "a.vtk", "b.vtk"]).trace =
        [b ++ "_ref.vtk", b ++ "_data_in.vtk", b ++ "_data_out.vtk"]) :=
  main_output_files demoLib extension ["icp", "--output", "run1", "a.vtk", "b.vtk"]
    { isCSV := false, configFile := "", outputBaseFile := "run1" }
    (by simp [validateArgs, optLoop, initArgs, extension, leaf, lastDot])
    (by decide)
    (by
      rintro c ⟨i, ⟨h1, h2⟩, hn, _⟩ _
      simp at h2
      interval_cases i <;> simp_all)

/-- C7: for an accepted argument vector, with `ref` and `data` the clouds loaded from
`argv[argc-2]` and `argv[argc-1]` and `T = icp(data, ref)`: the files `main` loads are
exactly `argv[argc-2]` then `argv[argc-1]`, whatever options precede them; `main`
returns 0 unless the configuration file cannot be opened, when it exits with code 1
before calling `icp`; and when it returns 0 it calls `icp(data, ref)` once,
`transform(data, T)` once, and saves `ref` as `*_ref.vtk`, `data` as `*_data_in.vtk`
and `transform(data, T)` as `*_data_out.vtk`. -/
theorem main_data_flow {Cloud Trans : Type} (lib : Library Cloud Trans)
    (ext : String → String) (argv : List String) (a : Args)
    (h : validateArgs ext argv initArgs = .ret a) :
    (loadCalls (main lib ext argv).trace).map Prod.snd =
      [argv.getD (argv.length - 2) "", argv.getD (argv.length - 1) ""] ∧
    ((main lib ext argv).status = 0 ↔
      (a.configFile = "" ∨ lib.good a.configFile = true)) ∧
    ((main lib ext argv).status = 0 →
      icpCalls (main lib ext argv).trace =
        [(loadWith lib a.isCSV (dataPath argv), loadWith lib a.isCSV (refPath argv))] ∧
      transformCalls (main lib ext argv).trace =
        [(loadWith lib a.isCSV (dataPath argv),
          lib.icp (setupOf a.configFile) (loadWith lib a.isCSV (dataPath argv))
            (loadWith lib a.isCSV (refPath argv)))] ∧
      saveCalls (main lib ext argv).trace =
        [(loadWith lib a.isCSV (refPath argv), a.outputBaseFile ++ "_ref.vtk"),
         (loadWith lib a.isCSV (dataPath argv), a.outputBaseFile ++ "_data_in.vtk"),
         (lib.compute (loadWith lib a.isCSV (dataPath argv))
            (lib.icp (setupOf a.configFile) (loadWith lib a.isCSV (dataPath argv))
              (loadWith lib a.isCSV (refPath argv))),
          a.outputBaseFile ++ "_data_out.vtk")]) ∧
    ((main lib ext argv).status ≠ 0 →
      (main lib ext argv).status = 1 ∧
      icpCalls (main lib ext argv).trace = [] ∧
      transformCalls (main lib ext argv).trace = [] ∧
      saveCalls (main lib ext argv).trace = []) := by
  rw [main_of_ret lib ext argv a h]
  by_cases hc : a.configFile = "" <;> cases hg : lib.good a.configFile <;>
    cases a.isCSV <;>
    simp [hc, hg, loadCalls, icpCalls, transformCalls, saveCalls, setupOf, refPath,
      dataPath]

/-- Witness for C7 at `icp --config icp.yaml --output o a.vtk b.vtk`. -/
theorem main_data_flow_witness :
    (main demoLib extension
      ["icp", "--config", "icp.yaml", "--output", "o", "a.vtk", "b.vtk"]).status = 0 ∧
    saveCalls (main demoLib extension
      ["icp", "--config", "icp.yaml", "--output", "o", "a.vtk", "b.vtk"]).trace =
      [("vtk:a.vtk", "o_ref.vtk"), ("vtk:b.vtk", "o_data_in.vtk"),
       ("move(vtk:b.vtk,icp[icp.yaml](vtk:b.vtk,vtk:a.vtk))", "o_data_out.vtk")] := by
  have hflow := main_data_flow demoLib extension
    ["icp", "--config", "icp.yaml", "--output", "o", "a.vtk", "b.vtk"]
    { isCSV := false, configFile := "icp.yaml", outputBaseFile := "o" }
    (by simp [validateArgs, optLoop, initArgs, extension, leaf, lastDot])
  have hs := hflow.2.1.2 (Or.inr (by decide))
  refine ⟨hs, ?_⟩
  rw [(hflow.2.2.1 hs).2.2]
  decide

/-- C8: when `validateArgs` returns normally, `isCSV` is true exactly when both
extensions are `.csv` and false exactly when both are `.vtk`, and `main` loads the
reference file and then the reading file with the same loader: the CSV loader when
`isCSV` is true, the VTK loader otherwise. -/
theorem main_loader_selection {Cloud Trans : Type} (lib : Library Cloud Trans)
    (ext : String → String) (argv : List String) (a : Args)
    (h : validateArgs ext argv initArgs = .ret a) :
    (a.isCSV = true ↔ ext (refPath argv) = ".csv" ∧ ext (dataPath argv) = ".csv") ∧
    (a.isCSV = false ↔ ext (refPath argv) = ".vtk" ∧ ext (dataPath argv) = ".vtk") ∧
    (main lib ext argv).trace.take 2 =
      (if a.isCSV then [.loadCSV (refPath argv), .loadCSV (dataPath argv)]
       else [.loadVTK (refPath argv), .loadVTK (dataPath argv)]) ∧
    loadCalls (main lib ext argv).trace =
      [(a.isCSV, refPath argv), (a.isCSV, dataPath argv)] := by
  obtain ⟨_, _, hr, he, hcsv, _, _⟩ := validateArgs_ret ext argv initArgs a h
  have hne : (".vtk" : String) ≠ ".csv" := by decide
  refine ⟨?_, ?_, ?_, ?_⟩
  · rw [hcsv, he]; simp
  · rw [hcsv, he]
    rcases hr with hv | hv
    · simp [hv, hne]
    · simp [hv, hne.symm]
  · rw [main_of_ret lib ext argv a h]
    by_cases hc : a.configFile = "" <;> cases hg : lib.good a.configFile <;>
      cases a.isCSV <;> simp [hc, hg]
  · rw [main_of_ret lib ext argv a h]
    by_cases hc : a.configFile = "" <;> cases hg : lib.good a.configFile <;>
      cases a.isCSV <;> simp [hc, hg, loadCalls]

/-- Witness for C8 at `icp scan1.vtk scan2.vtk`. -/
theorem main_loader_selection_witness :
    loadCalls (main demoLib extension ["icp", "scan1.vtk", "scan2.vtk"]).trace =
      [(false, "scan1.vtk"), (false, "scan2.vtk")] := by
  have hsel := main_loader_selection demoLib extension ["icp", "scan1.vtk", "scan2.vtk"]
    { isCSV := false, configFile := "", outputBaseFile := "test" }
    (by simp [validateArgs, optLoop, initArgs, extension, leaf, lastDot])
  rw [hsel.2.2.2]
  decide

end Icp
